import Mathlib

/-!
Verification of the cookie-shop point-of-sale program
(`cookie_shop_extra_credit.py`) against its behavioural specification.

The program is embedded shallowly:
* a catalog record (a Python dict) becomes the structure `Cookie`;
* Python `float` prices are modelled as exact rationals (`ℚ`);
* interactive input is modelled as a list of strings (one entry per
  `input()` call) and printed output as lists of message values;
* the two nested interactive loops of `solicit_order`/`solicit_quantity`
  are modelled as a step function on an explicit state (`ShopState`)
  folded over the input stream, and additionally (for the quantity loop)
  as a direct recursion over the remaining inputs;
* `int(...)` / `float(...)` parsing of already-stripped text is modelled
  by `pyParseInt` / `pyParseFloat` (optional sign followed by a decimal
  literal; exotic float forms such as exponents, `inf`, `nan` and digit
  underscores do not occur in catalog data and are not modelled).
-/

/-- A product record, as built by `bake_cookies` (one dict per CSV row). -/
structure Cookie where
  id : Int
  title : String
  description : String
  price : ℚ
  sugar_free : Bool
  gluten_free : Bool
  contains_nuts : Bool
deriving DecidableEq, Repr

/-- One sub-order `{'id': ..., 'quantity': ...}` appended by `solicit_order`. -/
structure OrderLine where
  id : Int
  quantity : Int
deriving DecidableEq, Repr

/-- The customer's three dietary flags, as returned by `welcome`. -/
structure Restrictions where
  allergic_to_nuts : Bool
  allergic_to_gluten : Bool
  diabetic : Bool
deriving DecidableEq, Repr

/-! ### Python-style string primitives

`pyLower` and `pyStrip` model Python's `str.lower()` and `str.strip()`
(ASCII case folding and whitespace, which covers all data this program
handles); they work on the character list so that concrete runs reduce. -/

/-- Python `s.lower()`. -/
def pyLower (s : String) : String := ⟨s.data.map Char.toLower⟩

/-- Python `s.strip()`: remove leading and trailing whitespace. -/
def pyStrip (s : String) : String :=
  ⟨((s.data.dropWhile Char.isWhitespace).reverse.dropWhile Char.isWhitespace).reverse⟩

/-! ### Python-style parsing of free text -/

/-- Value of a nonempty list of decimal digit characters. -/
def digitsToNat (l : List Char) : Nat :=
  l.foldl (fun a c => 10 * a + (c.toNat - 48)) 0

/-- Parse a nonempty all-digit character list as a natural number. -/
def natOfDigits (l : List Char) : Option Nat :=
  if l ≠ [] ∧ l.all Char.isDigit then some (digitsToNat l) else none

/-- Python `int(s)`: optional whitespace, optional sign, nonempty digits. -/
def pyParseInt (s : String) : Option Int :=
  match (pyStrip s).data with
  | '+' :: l => (natOfDigits l).map Int.ofNat
  | '-' :: l => (natOfDigits l).map (fun n => -(n : Int))
  | l => (natOfDigits l).map Int.ofNat

/-- Unsigned decimal literal `digits[.digits]` (at least one digit in all),
as accepted by Python `float` for catalog prices. -/
def parseDecCore (l : List Char) : Option ℚ :=
  match l.span Char.isDigit with
  | (ip, []) => if ip ≠ [] then some (digitsToNat ip : ℚ) else none
  | (ip, '.' :: fp) =>
      if fp.all Char.isDigit ∧ (ip ≠ [] ∨ fp ≠ []) then
        some ((digitsToNat ip : ℚ) + (digitsToNat fp : ℚ) / (10 : ℚ) ^ fp.length)
      else none
  | _ => none

/-- Python `float(s)` on price text: optional whitespace, optional sign,
decimal literal. -/
def pyParseFloat (s : String) : Option ℚ :=
  match (pyStrip s).data with
  | '+' :: l => parseDecCore l
  | '-' :: l => (parseDecCore l).map Neg.neg
  | l => parseDecCore l

/-! ### `welcome` (Restriction Collector) -/

/-- One answer of `welcome`: `input(...).strip().lower() in ['yes', 'y']`. -/
def welcomeAnswer (s : String) : Bool :=
  (["yes", "y"] : List String).contains (pyLower (pyStrip s))

/-- `welcome`, reading its three interactive answers: returns the triple
`(allergic_to_nuts, allergic_to_gluten, diabetic)`. -/
def welcome (nutsAns glutenAns diabAns : String) : Bool × Bool × Bool :=
  (welcomeAnswer nutsAns, welcomeAnswer glutenAns, welcomeAnswer diabAns)

/-- From the spec's words: a free-text answer that is case-insensitively
equal to `"yes"` or `"y"`. -/
def isAffirmative (s : String) : Prop :=
  pyLower s = pyLower "yes" ∨ pyLower s = pyLower "y"

instance (s : String) : Decidable (isAffirmative s) := by
  unfold isAffirmative; infer_instance

/-! ### `display_cookies` (Catalog Filter / Presenter) -/

/-- The list comprehension of `display_cookies` (lines 58–61): the cookies
kept for a customer with the given flags. -/
def displayCookiesFilter (cookies : List Cookie)
    (allergic_to_nuts allergic_to_gluten diabetic : Bool) : List Cookie :=
  cookies.filter (fun cookie =>
    (!allergic_to_nuts || !cookie.contains_nuts) &&
    (!allergic_to_gluten || !cookie.gluten_free) &&
    (!diabetic || !cookie.sugar_free))

/-- From the spec's words (§4.3): keep exactly the products satisfying
NOT(nut-allergic AND contains_nuts) AND NOT(gluten-allergic AND NOT
gluten_free) AND NOT(diabetic AND NOT sugar_free). -/
def specFilter (cookies : List Cookie) (r : Restrictions) : List Cookie :=
  cookies.filter (fun cookie =>
    !(r.allergic_to_nuts && cookie.contains_nuts) &&
    !(r.allergic_to_gluten && !cookie.gluten_free) &&
    !(r.diabetic && !cookie.sugar_free))

/-! ### `get_cookie_from_dict` -/

/-- `get_cookie_from_dict`: first cookie in the list whose id matches,
`None` when there is none. -/
def getCookieFromDict (id : Int) (cookies : List Cookie) : Option Cookie :=
  match cookies with
  | [] => none
  | cookie :: rest => if cookie.id = id then some cookie else getCookieFromDict id rest

/-! ### `bake_cookies` (Catalog Loader)

A CSV record, as handed over by `csv.DictReader`, is modelled as an
association list from field name to field text; `rowGet` is subscripting
(`row[k]`, absent key = `none`) and `rowGetD` is `row.get(k, d)`. -/

abbrev Row := List (String × String)

/-- `row[k]` / `row.get(k)`: the value of field `k`, if present. -/
def rowGet (row : Row) (k : String) : Option String :=
  (row.find? (fun p => p.1 = k)).map (fun p => p.2)

/-- `row.get(k, d)`: the value of field `k`, or the default `d`. -/
def rowGetD (row : Row) (k d : String) : String := (rowGet row k).getD d

/-- `s.replace('$', '')`: remove every dollar sign. -/
def pyReplaceDollarEmpty (s : String) : String :=
  ⟨s.data.filter (fun c => c ≠ '$')⟩

/-- One optional boolean field of `bake_cookies`:
`row.get(k, 'no').strip().lower() in ['yes', 'y']`. -/
def parseBoolField (row : Row) (k : String) : Bool :=
  (["yes", "y"] : List String).contains (pyLower (pyStrip (rowGetD row k "no")))

/-- The dict built by `bake_cookies` for one CSV record (lines 18–26);
`none` models the uncaught exception when a required field is absent
(`KeyError`) or its text does not parse (`ValueError`). -/
def parseRow (row : Row) : Option Cookie := do
  let ids ← rowGet row "id"
  let title ← rowGet row "title"
  let desc ← rowGet row "description"
  let prices ← rowGet row "price"
  let i ← pyParseInt ids
  let p ← pyParseFloat (pyStrip (pyReplaceDollarEmpty prices))
  pure { id := i, title := title, description := desc, price := p,
         sugar_free := parseBoolField row "sugar_free",
         gluten_free := parseBoolField row "gluten_free",
         contains_nuts := parseBoolField row "contains_nuts" }

/-- `bake_cookies` over the data records (header row already consumed by
`DictReader`): all records in order, or `none` on the first failure. -/
def bakeCookies : List Row → Option (List Cookie)
  | [] => some []
  | row :: rest =>
    match parseRow row with
    | none => none
    | some cookie => (bakeCookies rest).map (fun cs => cookie :: cs)

/-- A record carries the four required fields of the header. -/
def rowHasRequiredFields (row : Row) : Prop :=
  (rowGet row "id").isSome ∧ (rowGet row "title").isSome ∧
  (rowGet row "description").isSome ∧ (rowGet row "price").isSome

instance (row : Row) : Decidable (rowHasRequiredFields row) := by
  unfold rowHasRequiredFields; infer_instance

/-- A record whose id is not integer text, or whose price (after removing
dollar signs and surrounding whitespace) is not decimal text. -/
def idOrPriceUnparseable (row : Row) : Prop :=
  pyParseInt ((rowGet row "id").getD "") = none ∨
  pyParseFloat (pyStrip (pyReplaceDollarEmpty ((rowGet row "price").getD ""))) = none

instance (row : Row) : Decidable (idOrPriceUnparseable row) := by
  unfold idOrPriceUnparseable; infer_instance

/-! ### `display_order_total` (Order Summarizer) -/

/-- The lines `display_order_total` prints, in order. -/
inductive Msg where
  | thankYouOrdered
  | lineItem (quantity : Int) (title : String) (subtotal : ℚ)
  | total (t : ℚ)
  | payBitcoin
  | noCookies
  | signoff
deriving DecidableEq, Repr

/-- The `for item in order` loop of `display_order_total`: the per-line
messages and the final `total_price`, threading the running total `acc`;
`none` models the uncaught exception when a line's id is absent from the
catalog (`cookie` is `None`). -/
def computeLines : List OrderLine → List Cookie → ℚ → Option (List Msg × ℚ)
  | [], _, acc => some ([], acc)
  | item :: rest, cookies, acc =>
    match getCookieFromDict item.id cookies with
    | none => none
    | some cookie =>
      let subtotal := cookie.price * (item.quantity : ℚ)
      (computeLines rest cookies (acc + subtotal)).map
        (fun r => (Msg.lineItem item.quantity cookie.title subtotal :: r.1, r.2))

/-- `display_order_total`: the full transcript of the receipt. -/
def displayOrderTotal (order : List OrderLine) (cookies : List Cookie) :
    Option (List Msg) :=
  if order.isEmpty then some [Msg.noCookies, Msg.signoff]
  else
    match computeLines order cookies 0 with
    | none => none
    | some (ms, t) =>
        some (Msg.thankYouOrdered :: ms ++ [Msg.total t, Msg.payBitcoin, Msg.signoff])

/-- From the spec's words: the sum over all order lines of
quantity × unit price of the product with that id. -/
def specGrandTotal (order : List OrderLine) (cookies : List Cookie) : ℚ :=
  (order.map (fun item =>
    (item.quantity : ℚ) * (((getCookieFromDict item.id cookies).map Cookie.price).getD 0))).sum

/-! ### `solicit_quantity` and `solicit_order` (Order Collector)

Interactive input is a list of strings, one per `input()` call.  The
quantity loop of `solicit_quantity` (lines 99–109) is embedded directly as
a recursion over the remaining inputs, returning the accepted quantity,
the messages printed and the unconsumed inputs (`none` when the input
stream runs dry before a valid quantity).  The interleaved pair of loops
in `solicit_order` (lines 128–143) is embedded as a step relation on an
explicit state: `awaitId` is the top of the outer `while`, `awaitQty` is
inside `solicit_quantity`'s `while` for a validated cookie, and `finished`
is after `break`. -/

/-- The lines `solicit_quantity` prints while looping. -/
inductive QtyMsg where
  | invalidInput
  | mustBePositive
  | subtotalMsg (quantity : Int) (title : String) (subtotal : ℚ)
deriving DecidableEq, Repr

/-- The `while True` loop of `solicit_quantity` for a found cookie:
`int(input(...).strip())`, re-prompting on parse failure or a
non-positive value, and returning the first positive quantity together
with the printed subtotal `quantity * cookie['price']`. -/
def solicitQuantityLoop (cookie : Cookie) : List String → Option (Int × List QtyMsg × List String)
  | [] => none
  | s :: rest =>
    match pyParseInt (pyStrip s) with
    | none =>
        (solicitQuantityLoop cookie rest).map
          (fun r => (r.1, QtyMsg.invalidInput :: r.2.1, r.2.2))
    | some q =>
        if q > 0 then
          some (q, [QtyMsg.subtotalMsg q cookie.title ((q : ℚ) * cookie.price)], rest)
        else
          (solicitQuantityLoop cookie rest).map
            (fun r => (r.1, QtyMsg.mustBePositive :: r.2.1, r.2.2))

/-- `solicit_quantity`: looks the id up and runs the loop; when the cookie
is absent it returns `0` without reading input (lines 97–98, 110). -/
def solicitQuantity (id : Int) (cookies : List Cookie) (inputs : List String) :
    Option (Int × List QtyMsg × List String) :=
  match getCookieFromDict id cookies with
  | some cookie => solicitQuantityLoop cookie inputs
  | none => some (0, [], inputs)

/-- The sentinel keywords ending order entry. -/
def sentinels : List String := ["finished", "done", "quit", "exit"]

/-- Control state of `solicit_order` between two `input()` calls. -/
inductive ShopState where
  | awaitId (orders : List OrderLine)
  | awaitQty (cid : Int) (cookie : Cookie) (orders : List OrderLine)
  | finished (orders : List OrderLine)
deriving DecidableEq, Repr

/-- One `input()` exchange of `solicit_order` (with `solicit_quantity`
inlined): sentinel check, id parse, catalog lookup, then the quantity
loop; a positive quantity appends `{'id': cid, 'quantity': q}`. -/
def solicitOrderStep (cookies : List Cookie) (st : ShopState) (line : String) : ShopState :=
  match st with
  | .finished os => .finished os
  | .awaitId os =>
    let t := pyLower (pyStrip line)
    if sentinels.contains t then .finished os
    else
      match pyParseInt t with
      | none => .awaitId os
      | some cid =>
        match getCookieFromDict cid cookies with
        | none => .awaitId os
        | some cookie => .awaitQty cid cookie os
  | .awaitQty cid cookie os =>
    match pyParseInt (pyStrip line) with
    | none => .awaitQty cid cookie os
    | some q =>
      if q > 0 then .awaitId (os ++ [⟨cid, q⟩]) else .awaitQty cid cookie os

/-- `solicit_order` over a whole input stream: the accumulated sub-orders
when a sentinel is reached, `none` when the stream ends mid-loop. -/
def solicitOrder (cookies : List Cookie) (inputs : List String) : Option (List OrderLine) :=
  match inputs.foldl (solicitOrderStep cookies) (ShopState.awaitId []) with
  | .finished os => some os
  | _ => none

/-- The invariant `solicit_order` maintains: accumulated lines have a
catalog id and a positive quantity, and a pending quantity solicitation
is for the cookie found in the catalog. -/
def stateInv (cookies : List Cookie) : ShopState → Prop
  | .awaitId os => ∀ l ∈ os, (getCookieFromDict l.id cookies).isSome ∧ 0 < l.quantity
  | .finished os => ∀ l ∈ os, (getCookieFromDict l.id cookies).isSome ∧ 0 < l.quantity
  | .awaitQty cid cookie os =>
      getCookieFromDict cid cookies = some cookie ∧
      ∀ l ∈ os, (getCookieFromDict l.id cookies).isSome ∧ 0 < l.quantity

/-! ### Sample data used by closed theorems -/

/-- A plain cookie: no nuts, not gluten-free, not sugar-free. -/
def plainCookie : Cookie :=
  { id := 1, title := "Chocolate Chip", description := "classic",
    price := 2, sugar_free := false, gluten_free := false, contains_nuts := false }

/-- A gluten-free cookie. -/
def glutenFreeCookie : Cookie :=
  { id := 2, title := "Almond Flour", description := "gluten free",
    price := 3, sugar_free := false, gluten_free := true, contains_nuts := false }

/-- A second cookie sharing id 1 with `plainCookie` but at another price. -/
def duplicateIdCookie : Cookie :=
  { id := 1, title := "Impostor", description := "duplicate id",
    price := 5, sugar_free := false, gluten_free := false, contains_nuts := false }

/-- A well-formed catalog record (dollar-prefixed price, padded boolean). -/
def goodRow : Row :=
  [("id", "1"), ("title", "Choc"), ("description", "d"), ("price", "$2.50")]

/-- A record whose `sugar_free` field is `" yes "` with padding spaces. -/
def paddedYesRow : Row :=
  [("id", "1"), ("title", "t"), ("description", "d"), ("price", "2.00"),
   ("sugar_free", " yes ")]

/-- The cookie `bake_cookies` builds from `paddedYesRow`. -/
def paddedYesCookie : Cookie :=
  { id := 1, title := "t", description := "d", price := 2,
    sugar_free := true, gluten_free := false, contains_nuts := false }

/-! ## Helper lemmas -/

/-- The three boolean fields of a successfully parsed record are exactly
the `parseBoolField` results. -/
theorem parseRow_bool_fields (row : Row) (c : Cookie) (h : parseRow row = some c) :
    c.sugar_free = parseBoolField row "sugar_free" ∧
    c.gluten_free = parseBoolField row "gluten_free" ∧
    c.contains_nuts = parseBoolField row "contains_nuts" := by
  simp only [parseRow, Option.bind_eq_some, Option.pure_def, Option.some_inj,
    bind, pure] at h
  obtain ⟨ids, h1, title, h2, desc, h3, prices, h4, i, h5, p, h6, rfl⟩ := h
  exact ⟨rfl, rfl, rfl⟩

/-- `parseBoolField` is true iff the trimmed field value is
case-insensitively `"yes"` or `"y"`. -/
theorem parseBoolField_true_iff (row : Row) (k : String) :
    parseBoolField row k = true ↔ isAffirmative (pyStrip (rowGetD row k "no")) := by
  simp [parseBoolField, isAffirmative, List.contains,
    show pyLower "yes" = "yes" from rfl, show pyLower "y" = "y" from rfl]

/-- An absent optional field parses to `false`. -/
theorem parseBoolField_absent (row : Row) (k : String) (h : rowGet row k = none) :
    parseBoolField row k = false := by
  unfold parseBoolField rowGetD
  rw [h]
  rfl

/-- `parseRow` fails exactly on an unparseable id or price, given the
required fields are present. -/
theorem parseRow_eq_none_iff (row : Row) (hreq : rowHasRequiredFields row) :
    parseRow row = none ↔ idOrPriceUnparseable row := by
  obtain ⟨hi, ht, hd, hp⟩ := hreq
  obtain ⟨ids, hids⟩ := Option.isSome_iff_exists.mp hi
  obtain ⟨t, hts⟩ := Option.isSome_iff_exists.mp ht
  obtain ⟨d, hds⟩ := Option.isSome_iff_exists.mp hd
  obtain ⟨ps, hps⟩ := Option.isSome_iff_exists.mp hp
  cases hpi : pyParseInt ids <;>
    cases hpf : pyParseFloat (pyStrip (pyReplaceDollarEmpty ps)) <;>
      simp [parseRow, hids, hts, hds, hps, hpi, hpf, idOrPriceUnparseable, bind]

/-- `bake_cookies` fails exactly when some record fails to parse. -/
theorem bakeCookies_eq_none_iff (rows : List Row) :
    bakeCookies rows = none ↔ ∃ r ∈ rows, parseRow r = none := by
  induction rows with
  | nil => simp [bakeCookies]
  | cons r rest ih =>
    cases hr : parseRow r with
    | none =>
      simp only [bakeCookies, hr]
      exact ⟨fun _ => ⟨r, List.mem_cons_self r rest, hr⟩, fun _ => trivial⟩
    | some c =>
      simp only [bakeCookies, hr, Option.map_eq_none']
      rw [ih]
      constructor
      · rintro ⟨x, hx, hxn⟩
        exact ⟨x, List.mem_cons_of_mem r hx, hxn⟩
      · rintro ⟨x, hx, hxn⟩
        rcases List.mem_cons.mp hx with rfl | hmem
        · rw [hr] at hxn; cases hxn
        · exact ⟨x, hmem, hxn⟩

/-- A successful `bake_cookies` run parses the records pointwise, in
source order. -/
theorem bakeCookies_forall₂ (rows : List Row) (cs : List Cookie)
    (h : bakeCookies rows = some cs) :
    List.Forall₂ (fun r c => parseRow r = some c) rows cs := by
  induction rows generalizing cs with
  | nil =>
    simp only [bakeCookies, Option.some_inj] at h
    subst h
    exact List.Forall₂.nil
  | cons r rest ih =>
    cases hr : parseRow r with
    | none => simp [bakeCookies, hr] at h
    | some c =>
      simp only [bakeCookies, hr] at h
      cases hrest : bakeCookies rest with
      | none => rw [hrest] at h; cases h
      | some cs' =>
        rw [hrest] at h
        simp only [Option.map_some', Option.some_inj] at h
        subst h
        exact List.Forall₂.cons hr (ih cs' hrest)

/-- The summarizer loop, started at accumulator `acc`, ends with
`acc` plus the exact grand total. -/
theorem computeLines_total (order : List OrderLine) (cookies : List Cookie)
    (h : ∀ it ∈ order, (getCookieFromDict it.id cookies).isSome) :
    ∀ acc : ℚ, ∃ ms,
      computeLines order cookies acc = some (ms, acc + specGrandTotal order cookies) := by
  induction order with
  | nil =>
    intro acc
    exact ⟨[], by simp [computeLines, specGrandTotal]⟩
  | cons it rest ih =>
    intro acc
    obtain ⟨c, hc⟩ := Option.isSome_iff_exists.mp (h it (List.mem_cons_self it rest))
    obtain ⟨ms, hms⟩ :=
      ih (fun x hx => h x (List.mem_cons_of_mem it hx)) (acc + c.price * (it.quantity : ℚ))
    refine ⟨Msg.lineItem it.quantity c.title (c.price * (it.quantity : ℚ)) :: ms, ?_⟩
    simp only [computeLines, hc, hms, Option.map_some']
    have : specGrandTotal (it :: rest) cookies
        = (it.quantity : ℚ) * c.price + specGrandTotal rest cookies := by
      simp [specGrandTotal, hc]
    rw [this, show acc + c.price * (it.quantity : ℚ) + specGrandTotal rest cookies
      = acc + ((it.quantity : ℚ) * c.price + specGrandTotal rest cookies) by ring]

/-- The `finished` state is absorbing: later input is never read. -/
theorem foldl_step_finished (cookies : List Cookie) (os : List OrderLine)
    (inputs : List String) :
    inputs.foldl (solicitOrderStep cookies) (ShopState.finished os)
      = ShopState.finished os := by
  induction inputs with
  | nil => rfl
  | cons s rest ih => simpa [solicitOrderStep] using ih

/-- The state machine run from `awaitQty` agrees with the direct
embedding of `solicit_quantity`'s loop. -/
theorem foldl_step_awaitQty (cookies : List Cookie) (cid : Int) (cookie : Cookie)
    (os : List OrderLine) (inputs : List String) :
    inputs.foldl (solicitOrderStep cookies) (ShopState.awaitQty cid cookie os)
      = match solicitQuantityLoop cookie inputs with
        | none => ShopState.awaitQty cid cookie os
        | some r =>
            r.2.2.foldl (solicitOrderStep cookies)
              (ShopState.awaitId (os ++ [⟨cid, r.1⟩])) := by
  induction inputs with
  | nil => rfl
  | cons s rest ih =>
    rw [List.foldl_cons]
    cases hp : pyParseInt (pyStrip s) with
    | none =>
      rw [show solicitOrderStep cookies (ShopState.awaitQty cid cookie os) s
          = ShopState.awaitQty cid cookie os by simp [solicitOrderStep, hp]]
      rw [ih]
      cases hl : solicitQuantityLoop cookie rest <;>
        simp [solicitQuantityLoop, hp, hl]
    | some q =>
      by_cases hq : q > 0
      · rw [show solicitOrderStep cookies (ShopState.awaitQty cid cookie os) s
            = ShopState.awaitId (os ++ [⟨cid, q⟩]) by simp [solicitOrderStep, hp, hq]]
        simp [solicitQuantityLoop, hp, hq]
      · rw [show solicitOrderStep cookies (ShopState.awaitQty cid cookie os) s
            = ShopState.awaitQty cid cookie os by simp [solicitOrderStep, hp, hq]]
        rw [ih]
        cases hl : solicitQuantityLoop cookie rest <;>
          simp [solicitQuantityLoop, hp, hq, hl]

/-- One step of `solicit_order` preserves the collector invariant. -/
theorem stateInv_step (cookies : List Cookie) (st : ShopState) (line : String)
    (h : stateInv cookies st) :
    stateInv cookies (solicitOrderStep cookies st line) := by
  cases st with
  | finished os => exact h
  | awaitId os =>
    simp only [solicitOrderStep]
    split
    · exact h
    · cases hp : pyParseInt (pyLower (pyStrip line)) with
      | none => exact h
      | some cid =>
        cases hc : getCookieFromDict cid cookies with
        | none => simp only [hp, hc]; exact h
        | some cookie => simp only [hp, hc]; exact ⟨hc, h⟩
  | awaitQty cid cookie os =>
    obtain ⟨hc, hos⟩ := h
    simp only [solicitOrderStep]
    cases hp : pyParseInt (pyStrip line) with
    | none => exact ⟨hc, hos⟩
    | some q =>
      by_cases hq : q > 0
      · simp only [hq, if_true]
        intro l hl
        rcases List.mem_append.mp hl with hmem | hmem
        · exact hos l hmem
        · rcases List.mem_singleton.mp hmem with rfl
          exact ⟨by rw [hc]; rfl, hq⟩
      · simp only [hq, if_false]
        exact ⟨hc, hos⟩

/-- A whole run of `solicit_order` preserves the collector invariant. -/
theorem stateInv_foldl (cookies : List Cookie) (inputs : List String)
    (st : ShopState) (h : stateInv cookies st) :
    stateInv cookies (inputs.foldl (solicitOrderStep cookies) st) := by
  induction inputs generalizing st with
  | nil => exact h
  | cons s rest ih => exact ih _ (stateInv_step cookies st s h)

/-! ## Claims -/

/-- **C1.** The spec requires the filter to keep, for a gluten-allergic
customer, exactly the gluten-free products (and for a diabetic exactly the
sugar-free ones).  The code inverts both conditions: for a gluten-allergic
customer it keeps the cookie that is NOT gluten-free and removes the
gluten-free one, contradicting the program's own promise not to trigger an
allergic reaction.  Evaluated at the failing input: catalog
`[plainCookie, glutenFreeCookie]`, restrictions = gluten-allergic only. -/
theorem display_cookies_filter_inverts_gluten_condition :
    displayCookiesFilter [plainCookie, glutenFreeCookie] false true false
      = [plainCookie] ∧
    specFilter [plainCookie, glutenFreeCookie]
      ⟨false, true, false⟩ = [glutenFreeCookie] := by
  constructor <;> rfl

/-- **C4.** The filtered catalog is a subsequence of the input catalog:
relative order is preserved and its length never exceeds the catalog's. -/
theorem display_cookies_filter_sublist (cookies : List Cookie)
    (allergic_to_nuts allergic_to_gluten diabetic : Bool) :
    (displayCookiesFilter cookies allergic_to_nuts allergic_to_gluten diabetic).Sublist
        cookies ∧
    (displayCookiesFilter cookies allergic_to_nuts allergic_to_gluten diabetic).length
        ≤ cookies.length := by
  refine ⟨List.filter_sublist cookies, ?_⟩
  exact List.length_filter_le _ cookies

/-- **C5 (counterexample).** The answer `" yes "` is not case-insensitively
equal to `"yes"` or `"y"` (it carries surrounding spaces), yet `welcome`
collects `true` for it, because the code strips whitespace first. -/
theorem welcome_counterexample_untrimmed_yes :
    (welcome " yes " "no" "no").1 = true ∧ ¬ isAffirmative " yes " := by
  refine ⟨by decide, ?_⟩
  rintro (h | h) <;> exact absurd h (by decide)

/-- **C5 (amended).** Each of the three collected booleans is true iff the
whitespace-trimmed answer is case-insensitively equal to `"yes"` or `"y"`;
every other answer (with no retry) yields false. -/
theorem welcome_booleans_iff_affirmative (nutsAns glutenAns diabAns : String) :
    ((welcome nutsAns glutenAns diabAns).1 = true ↔ isAffirmative (pyStrip nutsAns)) ∧
    ((welcome nutsAns glutenAns diabAns).2.1 = true ↔ isAffirmative (pyStrip glutenAns)) ∧
    ((welcome nutsAns glutenAns diabAns).2.2 = true ↔ isAffirmative (pyStrip diabAns)) := by
  refine ⟨?_, ?_, ?_⟩ <;>
    simp [welcome, welcomeAnswer, isAffirmative, List.contains,
      show pyLower "yes" = "yes" from rfl, show pyLower "y" = "y" from rfl]

/-- **C10.** `get_cookie_from_dict` returns the first cookie in catalog
order whose id matches, and `None` exactly when no cookie has that id; so
with duplicate ids the earliest occurrence is the one used. -/
theorem get_cookie_from_dict_first_match (id : Int) (cookies : List Cookie) :
    (getCookieFromDict id cookies = none ↔ ∀ c ∈ cookies, c.id ≠ id) ∧
    (∀ c, getCookieFromDict id cookies = some c →
      c.id = id ∧ ∃ pre post, cookies = pre ++ c :: post ∧
        ∀ c' ∈ pre, c'.id ≠ id) := by
  induction cookies with
  | nil => simp [getCookieFromDict]
  | cons hd tl ih =>
    by_cases hid : hd.id = id
    · constructor
      · rw [getCookieFromDict, if_pos hid]
        simp only [reduceCtorEq, false_iff, not_forall]
        exact ⟨hd, ⟨List.mem_cons_self hd tl, by simpa using hid⟩⟩
      · intro c hc
        rw [getCookieFromDict, if_pos hid] at hc
        obtain rfl : hd = c := by injection hc
        exact ⟨hid, [], tl, rfl, fun c' h => absurd h (List.not_mem_nil c')⟩
    · rw [getCookieFromDict, if_neg hid]
      constructor
      · rw [ih.1]
        constructor
        · intro h c hc
          rcases List.mem_cons.mp hc with rfl | hmem
          · exact hid
          · exact h c hmem
        · intro h c hc
          exact h c (List.mem_cons_of_mem hd hc)
      · intro c hc
        obtain ⟨hcid, pre, post, htl, hpre⟩ := ih.2 c hc
        refine ⟨hcid, hd :: pre, post, by rw [htl]; rfl, ?_⟩
        intro c' hc'
        rcases List.mem_cons.mp hc' with rfl | hmem
        · exact hid
        · exact hpre c' hmem

theorem get_cookie_from_dict_first_match_witness :
    duplicateIdCookie.id = 1 ∧ plainCookie.id = 1 ∧
    ∃ pre post, [plainCookie, duplicateIdCookie] = pre ++ plainCookie :: post ∧
      ∀ c' ∈ pre, c'.id ≠ 1 :=
  ⟨by decide, (get_cookie_from_dict_first_match 1 [plainCookie, duplicateIdCookie]).2
    plainCookie rfl⟩

/-- **C2.** Whenever every order line's id occurs in the catalog, the
summarizer succeeds and the grand total it prints is exactly the sum of
quantity × unit price over all order lines (prices modelled as exact
rationals). -/
theorem display_order_total_exact (order : List OrderLine) (cookies : List Cookie)
    (h : ∀ it ∈ order, (getCookieFromDict it.id cookies).isSome) :
    ∃ ms, displayOrderTotal order cookies = some ms ∧
      (order ≠ [] → Msg.total (specGrandTotal order cookies) ∈ ms) := by
  cases order with
  | nil => exact ⟨[Msg.noCookies, Msg.signoff], rfl, fun hne => absurd rfl hne⟩
  | cons it rest =>
    obtain ⟨ms, hms⟩ := computeLines_total (it :: rest) cookies h 0
    rw [zero_add] at hms
    refine ⟨Msg.thankYouOrdered :: ms ++
      [Msg.total (specGrandTotal (it :: rest) cookies), Msg.payBitcoin, Msg.signoff],
      ?_, fun _ => ?_⟩
    · simp [displayOrderTotal, hms]
    · simp

theorem display_order_total_exact_witness :
    (∀ it ∈ [OrderLine.mk 1 3], (getCookieFromDict it.id [plainCookie]).isSome) ∧
    ∃ ms, displayOrderTotal [OrderLine.mk 1 3] [plainCookie] = some ms ∧
      ([OrderLine.mk 1 3] ≠ [] →
        Msg.total (specGrandTotal [OrderLine.mk 1 3] [plainCookie]) ∈ ms) :=
  ⟨by decide, display_order_total_exact [OrderLine.mk 1 3] [plainCookie] (by decide)⟩

/-- **C8 (counterexample).** The field value `" yes "` is not
case-insensitively equal to `"yes"` or `"y"` (it carries padding spaces),
yet the loader parses it to true, because the code strips whitespace
first. -/
theorem bake_cookies_bool_counterexample :
    parseRow paddedYesRow = some paddedYesCookie ∧
    paddedYesCookie.sugar_free = true ∧ ¬ isAffirmative " yes " := by
  refine ⟨by with_unfolding_all decide, by decide, ?_⟩
  rintro (h | h) <;> exact absurd h (by decide)

/-- **C8 (amended).** For every successfully parsed catalog record, each
of the three optional boolean fields is true exactly when its
whitespace-trimmed value compares case-insensitively equal to `"yes"` or
`"y"`, and a field absent from the header is not an error and defaults to
false. -/
theorem bake_cookies_bool_fields (row : Row) (c : Cookie)
    (h : parseRow row = some c) :
    (c.sugar_free = true ↔ isAffirmative (pyStrip (rowGetD row "sugar_free" "no"))) ∧
    (c.gluten_free = true ↔ isAffirmative (pyStrip (rowGetD row "gluten_free" "no"))) ∧
    (c.contains_nuts = true ↔ isAffirmative (pyStrip (rowGetD row "contains_nuts" "no"))) ∧
    (rowGet row "sugar_free" = none → c.sugar_free = false) ∧
    (rowGet row "gluten_free" = none → c.gluten_free = false) ∧
    (rowGet row "contains_nuts" = none → c.contains_nuts = false) := by
  obtain ⟨hs, hg, hn⟩ := parseRow_bool_fields row c h
  rw [hs, hg, hn]
  exact ⟨parseBoolField_true_iff row "sugar_free",
    parseBoolField_true_iff row "gluten_free",
    parseBoolField_true_iff row "contains_nuts",
    parseBoolField_absent row "sugar_free",
    parseBoolField_absent row "gluten_free",
    parseBoolField_absent row "contains_nuts"⟩

theorem bake_cookies_bool_fields_witness :
    (paddedYesCookie.sugar_free = true ↔
      isAffirmative (pyStrip (rowGetD paddedYesRow "sugar_free" "no"))) ∧
    (rowGet paddedYesRow "gluten_free" = none →
      paddedYesCookie.gluten_free = false) :=
  ⟨(bake_cookies_bool_fields paddedYesRow paddedYesCookie
      (by with_unfolding_all decide)).1,
   (bake_cookies_bool_fields paddedYesRow paddedYesCookie
      (by with_unfolding_all decide)).2.2.2.2.1⟩

/-- **C9.** When every record carries the required header fields, the
loader fails (with the fatal parse error, producing no catalog) exactly
when some record's id or price text cannot be parsed; and on success it
returns exactly the parsed records, in source order. -/
theorem bake_cookies_parse_error_iff (rows : List Row)
    (hreq : ∀ r ∈ rows, rowHasRequiredFields r) :
    (bakeCookies rows = none ↔ ∃ r ∈ rows, idOrPriceUnparseable r) ∧
    (∀ cs, bakeCookies rows = some cs →
      List.Forall₂ (fun r c => parseRow r = some c) rows cs) := by
  refine ⟨?_, fun cs h => bakeCookies_forall₂ rows cs h⟩
  rw [bakeCookies_eq_none_iff]
  constructor
  · rintro ⟨r, hr, hrn⟩
    exact ⟨r, hr, (parseRow_eq_none_iff r (hreq r hr)).1 hrn⟩
  · rintro ⟨r, hr, hru⟩
    exact ⟨r, hr, (parseRow_eq_none_iff r (hreq r hr)).2 hru⟩

theorem bake_cookies_parse_error_iff_witness :
    (∀ r ∈ [goodRow], rowHasRequiredFields r) ∧
    (bakeCookies [goodRow] = none ↔ ∃ r ∈ [goodRow], idOrPriceUnparseable r) :=
  ⟨by decide, (bake_cookies_parse_error_iff [goodRow] (by decide)).1⟩

/-- **C3.** Whenever `solicit_order` terminates (the input stream reaches
a sentinel), every returned order line has an id present in the full,
unfiltered catalog and a strictly positive quantity. -/
theorem solicit_order_lines_valid (cookies : List Cookie) (inputs : List String)
    (orders : List OrderLine) (h : solicitOrder cookies inputs = some orders) :
    ∀ l ∈ orders, (getCookieFromDict l.id cookies).isSome ∧ 0 < l.quantity := by
  have hinv : stateInv cookies
      (inputs.foldl (solicitOrderStep cookies) (ShopState.awaitId [])) :=
    stateInv_foldl cookies inputs (ShopState.awaitId [])
      (fun l hl => absurd hl (List.not_mem_nil l))
  unfold solicitOrder at h
  cases hf : inputs.foldl (solicitOrderStep cookies) (ShopState.awaitId []) with
  | awaitId os => rw [hf] at h; cases h
  | awaitQty cid cookie os => rw [hf] at h; cases h
  | finished os =>
    rw [hf] at h
    obtain rfl : os = orders := by injection h
    rw [hf] at hinv
    exact hinv

theorem solicit_order_lines_valid_witness :
    (getCookieFromDict 1 [plainCookie]).isSome ∧ (0 : Int) < 2 :=
  solicit_order_lines_valid [plainCookie] ["1", "2", "finished"]
    [OrderLine.mk 1 2] (by decide) (OrderLine.mk 1 2) (by decide)

/-- **C6.** In `solicit_quantity`'s loop, a parsed value ≤ 0 is rejected
with the "must be positive" message and the loop re-prompts on the rest
of the input; the first parsed value > 0 terminates the loop, prints the
subtotal quantity × unit price, and is returned; on inputs `"-1"` then
`"2"` the returned quantity is 2 and the subtotal is computed on 2 only. -/
theorem solicit_quantity_loop_behavior :
    (∀ (cookie : Cookie) (s : String) (rest : List String) (q : Int),
      pyParseInt (pyStrip s) = some q → q ≤ 0 →
      solicitQuantityLoop cookie (s :: rest)
        = (solicitQuantityLoop cookie rest).map
            (fun r => (r.1, QtyMsg.mustBePositive :: r.2.1, r.2.2))) ∧
    (∀ (cookie : Cookie) (s : String) (rest : List String) (q : Int),
      pyParseInt (pyStrip s) = some q → 0 < q →
      solicitQuantityLoop cookie (s :: rest)
        = some (q, [QtyMsg.subtotalMsg q cookie.title ((q : ℚ) * cookie.price)], rest)) ∧
    (∀ cookie : Cookie,
      solicitQuantityLoop cookie ["-1", "2"]
        = some (2, [QtyMsg.mustBePositive,
            QtyMsg.subtotalMsg 2 cookie.title ((2 : ℚ) * cookie.price)], [])) := by
  refine ⟨?_, ?_, ?_⟩
  · intro cookie s rest q hp hq
    simp [solicitQuantityLoop, hp, not_lt.mpr hq]
  · intro cookie s rest q hp hq
    simp [solicitQuantityLoop, hp, hq]
  · intro cookie
    simp [solicitQuantityLoop,
      show pyParseInt (pyStrip "-1") = some (-1) from rfl,
      show pyParseInt (pyStrip "2") = some 2 from rfl]

theorem solicit_quantity_loop_behavior_witness :
    solicitQuantityLoop plainCookie ["3"]
      = some (3, [QtyMsg.subtotalMsg 3 plainCookie.title ((3 : ℚ) * plainCookie.price)], []) :=
  solicit_quantity_loop_behavior.2.1 plainCookie "3" [] 3 (by decide) (by decide)

/-- **C7.** Whenever the trimmed, lower-cased input is one of the four
sentinels, the order loop terminates with the lines accumulated so far;
in particular a first input of `"finished"` yields the empty order, for
which the summarizer prints the "no items ordered" message followed by
the unconditional sign-off. -/
theorem solicit_order_sentinel_terminates :
    (∀ (cookies : List Cookie) (os : List OrderLine) (s : String) (rest : List String),
      sentinels.contains (pyLower (pyStrip s)) = true →
      (s :: rest).foldl (solicitOrderStep cookies) (ShopState.awaitId os)
        = ShopState.finished os) ∧
    (∀ cookies : List Cookie, solicitOrder cookies ["finished"] = some []) ∧
    (∀ cookies : List Cookie,
      displayOrderTotal [] cookies = some [Msg.noCookies, Msg.signoff]) := by
  refine ⟨?_, ?_, fun _ => rfl⟩
  · intro cookies os s rest hs
    have hmem : pyLower (pyStrip s) ∈ sentinels := by
      simpa [List.contains] using hs
    rw [List.foldl_cons,
      show solicitOrderStep cookies (ShopState.awaitId os) s = ShopState.finished os by
        simp [solicitOrderStep, hmem]]
    exact foldl_step_finished cookies os rest
  · intro cookies
    unfold solicitOrder
    rw [show List.foldl (solicitOrderStep cookies) (ShopState.awaitId []) ["finished"]
        = ShopState.finished [] by
      simp [solicitOrderStep,
        show pyLower (pyStrip "finished") ∈ sentinels by decide]]

theorem solicit_order_sentinel_terminates_witness :
    (sentinels.contains (pyLower (pyStrip "DONE ")) = true) ∧
    (["DONE ", "ignored"].foldl (solicitOrderStep [plainCookie])
      (ShopState.awaitId [OrderLine.mk 1 2])
        = ShopState.finished [OrderLine.mk 1 2]) :=
  ⟨by decide, solicit_order_sentinel_terminates.1 [plainCookie]
    [OrderLine.mk 1 2] "DONE " ["ignored"] (by decide)⟩
